import Mathlib

/-!
Verification of the deterministic heuristics of the drishti promotion-analysis
backend: keyword classifiers, retrieval filtering, quarter derivation,
sync/rebuild decision, retry logic, tool error boundaries and the shared
tool-usage flag.  Each definition is a shallow embedding of the corresponding
Python function in `src/backend`.
-/

namespace Drishti

/-! ### String primitives

Python's `needle in haystack` (substring containment) and `str.lower`,
modelled over the character list of a `String`. -/

/-- `startsWithChars hay needle` is true when `needle` is a prefix of `hay`. -/
def startsWithChars : List Char → List Char → Bool
  | _, [] => true
  | [], _ :: _ => false
  | c :: cs, d :: ds => c == d && startsWithChars cs ds

/-- `containsSub hay needle` models Python's `needle in hay` on char lists. -/
def containsSub : List Char → List Char → Bool
  | [], needle => startsWithChars [] needle
  | c :: t, needle => startsWithChars (c :: t) needle || containsSub t needle

/-- `pyIn needle hay` models Python's `needle in hay` for strings. -/
def pyIn (needle hay : String) : Bool :=
  containsSub hay.data needle.data

/-- Models Python's `str.lower()` (ASCII-adequate for the fixed keyword lists). -/
def pyLower (s : String) : String :=
  ⟨s.data.map Char.toLower⟩

/-! ### `MLTool._is_simple_query` (src/backend/app/tools/ml_tool.py lines 310-325) -/

/-- Prediction keywords: any of these forces the AutoML ("complex") path. -/
def prediction_keywords : List String :=
  ["predict", "forecast", "what would", "what will", "expected"]

/-- Simple-statistics keywords checked when no prediction keyword matched. -/
def simple_keywords : List String :=
  ["average", "mean", "typical", "usual", "normal",
   "similar to", "like", "comparable", "historical"]

/-- Embedding of `MLTool._is_simple_query`: `true` means statistical summary
("simple"), `false` means train a regression model ("complex"). -/
def is_simple_query (query : String) : Bool :=
  let query_lower := pyLower query
  if prediction_keywords.any (fun k => pyIn k query_lower) then
    false
  else
    simple_keywords.any (fun k => pyIn k query_lower)

example : is_simple_query "Predict the ROI" = false := by decide
example : is_simple_query "average uplift" = true := by decide
example : is_simple_query "hello" = false := by decide

/-! ### `parse_date_filter` (src/backend/app/utils.py lines 167-185)

The Python function returns a dict holding at most the single key `'Quarter'`;
we model that dict as an `Option String` (`none` = empty dict,
`some v` = `\x7b'Quarter': v\x7d`).  The `quarters` dict iterates in insertion
order, and the loop breaks at the first key contained in the query. -/

/-- The fixed `quarters` substring table, in the dict's insertion order. -/
def quarters_table : List (String × String) :=
  [("q1", "Q1"), ("quarter 1", "Q1"), ("first quarter", "Q1"),
   ("q2", "Q2"), ("quarter 2", "Q2"), ("second quarter", "Q2"),
   ("q3", "Q3"), ("quarter 3", "Q3"), ("third quarter", "Q3"),
   ("q4", "Q4"), ("quarter 4", "Q4"), ("fourth quarter", "Q4")]

/-- Embedding of `parse_date_filter`: first quarter key (in table order) that
is a substring of the lowercased query, else `none`. -/
def parse_date_filter (query : String) : Option String :=
  let query_lower := pyLower query
  (quarters_table.find? (fun kv => pyIn kv.1 query_lower)).map (fun kv => kv.2)

example : parse_date_filter "sales in Q3" = some "Q3" := by decide
example : parse_date_filter "compare q2 with q1" = some "Q1" := by decide
example : parse_date_filter "no quarter here" = none := by decide

/-! ### `MLTool._detect_target_variable` (src/backend/app/tools/ml_tool.py lines 257-308) -/

/-- The `target_preferences` list: keyword groups paired with candidate
columns, in priority order. -/
def target_preferences : List (List String × List String) :=
  [(["value uplift", "value_uplift"],
    ["Actual_Promo_Sales_Value_Uplift_%",
     "Planned_Promo_Sales_Value_Uplift_%",
     "Actual_Promo_Sales_Value_Uplift_PromoID_%"]),
   (["volume uplift", "volume_uplift"],
    ["Actual_Promo_Sales_Volume_Uplift",
     "Planned_Promo_Sales_Volume_Uplift"]),
   (["roi"],
    ["ROI%", "ROI%_PromoID", "Planned_ROI%"]),
   (["gross profit", "profit"],
    ["Gross_Profit", "Planned_Gross_Profit"]),
   (["sales"],
    ["Predicted_Sales", "Sales_Value", "Actual_Sales_Value"])]

/-- The hardcoded fallback order used when no keyword group yields a column. -/
def fallback_order : List String :=
  ["Actual_Promo_Sales_Value_Uplift_%",
   "Actual_Promo_Sales_Volume_Uplift",
   "ROI%",
   "Predicted_Sales"]

/-- The keyword-scan loop of `_detect_target_variable`: for each group in
order, if a keyword matches, return the first of its columns present in the
dataframe; if none is present, continue with the next group. -/
def scan_preferences (query_lower : String) (cols : List String) :
    List (List String × List String) → Option String
  | [] => none
  | (keywords, columns) :: rest =>
    if keywords.any (fun k => pyIn k query_lower) then
      match columns.find? (fun c => cols.contains c) with
      | some c => some c
      | none => scan_preferences query_lower cols rest
    else
      scan_preferences query_lower cols rest

/-- Embedding of `MLTool._detect_target_variable`; `cols` is the dataframe's
column list. -/
def detect_target_variable (cols : List String) (query : String) : Option String :=
  match scan_preferences (pyLower query) cols target_preferences with
  | some c => some c
  | none => fallback_order.find? (fun c => cols.contains c)

example :
    detect_target_variable ["ROI%", "Predicted_Sales"] "maximise roi" = some "ROI%" := by
  decide

example :
    detect_target_variable ["Predicted_Sales"] "just numbers" = some "Predicted_Sales" := by
  decide

/-! ### Quarter derivation (src/backend/data_loader.py)

Two independent derivations of the `Quarter` field from a week number:
the SQL `CASE` expression in `create_duckdb` (lines 77-86) and the Python
computation in `_prepare_metadata` (lines 139-165). -/

/-- Embedding of the SQL `CASE` expression populating the `Quarter` column. -/
def sql_quarter (week : Int) : String :=
  if 1 ≤ week ∧ week ≤ 13 then "Q1"
  else if 14 ≤ week ∧ week ≤ 26 then "Q2"
  else if 27 ≤ week ∧ week ≤ 39 then "Q3"
  else if 40 ≤ week ∧ week ≤ 52 then "Q4"
  else "Unknown"

/-- Embedding of the `_prepare_metadata` quarter computation.  The week slot
may be `None` (`none`), and Python's `if week:` also rejects `0`; a week
outside 1-52 sets no `'Quarter'` metadata key (`none`). -/
def metadata_quarter (week : Option Int) : Option String :=
  match week with
  | none => none
  | some w =>
    if w ≠ 0 then
      if 1 ≤ w ∧ w ≤ 13 then some "Q1"
      else if 14 ≤ w ∧ w ≤ 26 then some "Q2"
      else if 27 ≤ w ∧ w ≤ 39 then some "Q3"
      else if 40 ≤ w ∧ w ≤ 52 then some "Q4"
      else none
    else none

example : metadata_quarter (some 13) = some "Q1" := by decide
example : metadata_quarter (some 53) = none := by decide
example : sql_quarter 53 = "Unknown" := by decide

/-! ### `RAGTool.search_with_filters` (src/backend/app/tools/rag_tool.py lines 55-84)

A vector document is its text plus a metadata mapping, modelled as an
association list.  The FAISS store's `similarity_search(query, k)` contract is
the top-`k` prefix of a similarity-ranked document list, modelled by a
function `vs : String → List Doc` giving the full ranking for each query. -/

/-- A vector document: page content plus metadata (association list). -/
structure Doc where
  page_content : String
  metadata : List (String × String)
deriving DecidableEq, Repr

/-- Association-list lookup, modelling Python dict access on the metadata. -/
def metaLookup : List (String × String) → String → Option String
  | [], _ => none
  | (k, v) :: rest, key => if k == key then some v else metaLookup rest key

/-- The per-document filter check of `search_with_filters`: a document fails
only when its metadata carries a filter key with a different value; a missing
key passes (`key in doc.metadata and doc.metadata[key] != value`). -/
def matchesFilters (filters : List (String × String)) (md : List (String × String)) : Bool :=
  filters.all (fun kv =>
    match metaLookup md kv.1 with
    | some v => v == kv.2
    | none => true)

/-- `Config.TOP_K_RESULTS` (src/backend/config.py line 43). -/
def TOP_K_RESULTS : Nat := 10

/-- The accumulation loop of `search_with_filters`: append each matching
document, and break as soon as the accumulator holds at least `k` documents
(the length check runs every iteration, matching the Python `for` body). -/
def filterLoop (filters : List (String × String)) (k : Nat)
    (acc : List Doc) : List Doc → List Doc
  | [] => acc
  | d :: ds =>
    let acc' := if matchesFilters filters d.metadata then acc ++ [d] else acc
    if k ≤ acc'.length then acc' else filterLoop filters k acc' ds

/-- Models `vectorstore.similarity_search(query, k)`: the top-`k` prefix of
the similarity ranking for the query. -/
def similarity_search (vs : String → List Doc) (query : String) (k : Nat) : List Doc :=
  (vs query).take k

/-- Embedding of `RAGTool.search_with_filters`: with a non-empty filter dict,
over-fetch `k*3` candidates and keep the first `k` that pass the filters;
with an empty dict (Python falsy), plain top-`k` search. -/
def search_with_filters (vs : String → List Doc) (query : String)
    (filters : List (String × String)) (k : Nat) : List Doc :=
  if filters.isEmpty then
    similarity_search vs query k
  else
    filterLoop filters k [] (similarity_search vs query (k * 3))

/-! ### `ADLSManager.sync_latest_file` (src/backend/adls_manager.py lines 104-153)
and `manual_sync_trigger` (src/backend/app.py lines 64-89) -/

/-- A remote CSV entry as listed by `list_csv_files`. -/
structure RemoteFile where
  name : String
  last_modified : Int
deriving DecidableEq, Repr

/-- Descending insertion step for `csv_files.sort(key=last_modified, reverse=True)`. -/
def insertByMTimeDesc (f : RemoteFile) : List RemoteFile → List RemoteFile
  | [] => [f]
  | g :: gs =>
    if g.last_modified ≤ f.last_modified then f :: g :: gs
    else g :: insertByMTimeDesc f gs

/-- Models the newest-first sort in `list_csv_files`. -/
def sortByMTimeDesc : List RemoteFile → List RemoteFile
  | [] => []
  | f :: fs => insertByMTimeDesc f (sortByMTimeDesc fs)

/-- `.csv` suffix test, as used by the local `glob("*.csv")` cleanup. -/
def endsWithCsv (s : String) : Bool :=
  startsWithChars s.data.reverse ".csv".data.reverse

/-- `os.path.basename`: the part after the last `/`. -/
def basename (s : String) : String :=
  ⟨(s.data.reverse.takeWhile (fun c => c != '/')).reverse⟩

/-- Outcome of a sync: the returned `(path, is_new)` pair, the resulting
local directory contents, and which remote file (if any) was downloaded. -/
structure SyncResult where
  path : Option String
  is_new : Bool
  localAfter : List String
  downloaded : Option String
deriving DecidableEq, Repr

/-- Embedding of `ADLSManager.sync_latest_file` for a reachable store:
`remote` is the raw remote CSV listing, `localFiles` the filenames in the
downloads directory.  If the newest remote file's basename already exists
locally, return it with `is_new = False` touching nothing; otherwise delete
every local `*.csv`, download the newest file, and return `is_new = True`. -/
def sync_latest_file (remote : List RemoteFile) (localFiles : List String) : SyncResult :=
  match sortByMTimeDesc remote with
  | [] => ⟨none, false, localFiles, none⟩
  | latest :: _ =>
    let latest_filename := basename latest.name
    if localFiles.contains latest_filename then
      ⟨some latest_filename, false, localFiles, none⟩
    else
      ⟨some latest_filename, true,
       (localFiles.filter (fun f => !endsWithCsv f)) ++ [latest_filename],
       some latest.name⟩

/-- Embedding of the rebuild decision in `manual_sync_trigger`: the system is
re-initialized with `force_rebuild=True` exactly when the sync reported a new
file. -/
def manual_sync_force_rebuild (r : SyncResult) : Bool :=
  r.is_new

example :
    sync_latest_file [⟨"dir/a.csv", 5⟩, ⟨"dir/b.csv", 9⟩] ["a.csv"] =
      ⟨some "b.csv", true, ["b.csv"], some "dir/b.csv"⟩ := by decide

example :
    sync_latest_file [⟨"dir/a.csv", 5⟩, ⟨"dir/b.csv", 9⟩] ["b.csv"] =
      ⟨some "b.csv", false, ["b.csv"], none⟩ := by decide

/-! ### `retry_with_backoff` (src/backend/app/utils.py lines 81-107)

The wrapped function is modelled as `f : Nat → Except E A`, giving the
outcome of each successive invocation (`f 0` is the first attempt).  The
wrapper's observable behaviour is its final outcome (`none` models the
Python `return None` fall-through when `max_retries = 0`) together with the
list of back-off sleeps performed, in seconds (`time.sleep(wait_time)`). -/

/-- `Config.SQL_MAX_RETRIES` (src/backend/config.py line 59). -/
def SQL_MAX_RETRIES : Nat := 5

/-- `Config.SQL_RETRY_DELAY` in seconds (src/backend/config.py line 60). -/
def SQL_RETRY_DELAY : ℚ := 1

/-- The `while retries < max_retries` loop of the `retry_with_backoff`
wrapper.  After a failure, `retries` is incremented; if it reached
`max_retries` the last exception is re-raised, otherwise the wrapper sleeps
`delay * 2 ** (retries - 1)` seconds and retries. -/
def retryLoop {E A : Type} (f : Nat → Except E A) (max_retries : Nat) (delay : ℚ)
    (retries : Nat) (waits : List ℚ) : Option (Except E A) × List ℚ :=
  if retries < max_retries then
    match f retries with
    | Except.ok a => (some (Except.ok a), waits)
    | Except.error e =>
      if max_retries ≤ retries + 1 then (some (Except.error e), waits)
      else retryLoop f max_retries delay (retries + 1) (waits ++ [delay * 2 ^ retries])
  else
    (none, waits)
termination_by max_retries - retries

/-- The `retry_with_backoff(max_retries, delay)` wrapper applied to `f`. -/
def retry_with_backoff {E A : Type} (max_retries : Nat) (delay : ℚ)
    (f : Nat → Except E A) : Option (Except E A) × List ℚ :=
  retryLoop f max_retries delay 0 []

/-- `SQLTool.execute_sql` is the one function carrying the decorator
(`@retry_with_backoff()`, src/backend/tools/sql_tool.py line 60), with the
config defaults `max_retries = 5`, `delay = 1.0`. -/
def execute_sql_with_retry {E A : Type} (f : Nat → Except E A) :
    Option (Except E A) × List ℚ :=
  retry_with_backoff SQL_MAX_RETRIES SQL_RETRY_DELAY f

/-! ### Tool error boundaries (C8)

Each tool's `run` takes a question and returns a string; the fallible internal
steps (LLM calls, SQL execution, vector search) are modelled as `Except String`
values supplied by an environment record, with the exception rendered as the
Python `str(e)` text.  `run` itself is a total function — the broad
`except Exception` at each tool boundary means no exception escapes. -/

/-- Fallible collaborators of `SQLTool.run` (src/backend/tools/sql_tool.py
lines 86-133): SQL generation by the LLM, then execution returning a
dataframe, modelled as its rendered rows. -/
structure SQLEnv where
  generate_sql : Except String String
  execute : String → Except String (List String)

/-- Embedding of `SQLTool.run`. -/
def sql_tool_run (env : SQLEnv) (_question : String) : String :=
  match env.generate_sql with
  | Except.error e => "Error executing SQL query: " ++ e
  | Except.ok sql_query =>
    match env.execute sql_query with
    | Except.error e => "Error executing SQL query: " ++ e
    | Except.ok rows =>
      if rows.length = 0 then "No results found."
      else "Results (" ++ toString rows.length ++ " rows):\n" ++ String.intercalate "\n" rows

/-- Fallible collaborators of `RAGTool.run` (src/backend/app/tools/rag_tool.py
lines 103-158): the filtered vector search and the LLM interpretation.  The
exception text is `f"\x7btype(e).__name__\x7d: \x7bstr(e)\x7d"`. -/
structure RAGEnv where
  search : String → List (String × String) → Except String (List Doc)
  interpret : Except String String

/-- Embedding of `RAGTool.run`: parse the quarter filter, search, and narrate. -/
def rag_tool_run (env : RAGEnv) (question : String) : String :=
  let filters : List (String × String) :=
    match parse_date_filter question with
    | some v => [("Quarter", v)]
    | none => []
  match env.search question filters with
  | Except.error e => "Error during semantic search: " ++ e
  | Except.ok docs =>
    if docs.isEmpty then "No relevant results found for your query."
    else
      match env.interpret with
      | Except.error e => "Error during semantic search: " ++ e
      | Except.ok interpretation => interpretation

/-- Fallible collaborators of `MLTool.run` (src/backend/app/tools/ml_tool.py
lines 327-373).  `cached` models the cache lookup; `extract_scenario` and
`statistical` are LLM calls that may raise; `_ml_prediction` catches its own
exceptions internally and always returns a string. -/
structure MLEnv where
  cached : Option String
  extract_scenario : Except String (List (String × String))
  statistical : Except String String
  ml_predict : String

/-- Embedding of `MLTool.run`; `cols` is the dataframe's column list. -/
def ml_tool_run (cols : List String) (env : MLEnv) (question : String) : String :=
  match env.cached with
  | some cached_result => cached_result
  | none =>
    match env.extract_scenario with
    | Except.error e => "Error during ML prediction: " ++ e
    | Except.ok _scenario =>
      if is_simple_query question then
        match env.statistical with
        | Except.error e => "Error during ML prediction: " ++ e
        | Except.ok r => r
      else
        match detect_target_variable cols question with
        | none =>
          match env.statistical with
          | Except.error e => "Error during ML prediction: " ++ e
          | Except.ok r => r
        | some _target => env.ml_predict

/-- An internal step of `SQLTool.run` fails. -/
def sqlRunFails (env : SQLEnv) : Prop :=
  (∃ e, env.generate_sql = Except.error e) ∨
    (∃ sql e, env.generate_sql = Except.ok sql ∧ env.execute sql = Except.error e)

/-- An internal step of `RAGTool.run` fails. -/
def ragRunFails (env : RAGEnv) (question : String) : Prop :=
  let filters : List (String × String) :=
    match parse_date_filter question with
    | some v => [("Quarter", v)]
    | none => []
  (∃ e, env.search question filters = Except.error e) ∨
    (∃ docs e, env.search question filters = Except.ok docs ∧ ¬docs.isEmpty ∧
      env.interpret = Except.error e)

/-- An internal step of `MLTool.run` fails (the statistical LLM call is only
reached on the simple path or when no target variable is detected). -/
def mlRunFails (cols : List String) (env : MLEnv) (question : String) : Prop :=
  env.cached = none ∧
    ((∃ e, env.extract_scenario = Except.error e) ∨
      ((∃ s, env.extract_scenario = Except.ok s) ∧
        (is_simple_query question = true ∨ detect_target_variable cols question = none) ∧
        (∃ e, env.statistical = Except.error e)))

/-! ### `ToolUsageTracker` (src/backend/app/utils.py lines 207-237) -/

/-- `ToolUsageTracker.DEFAULT_MESSAGE`. -/
def DEFAULT_MESSAGE : String := "INCUBATOR RESPONSE (NO TOOL USED)"

/-- The message recorded first thing by `SQLTool.run`. -/
def SQL_TOOL_MESSAGE : String := "SQL TOOL USED"

/-- The message recorded first thing by `RAGTool.run`. -/
def RAG_TOOL_MESSAGE : String := "RAG TOOL USED"

/-- The message recorded first thing by `MLTool.run`. -/
def ML_TOOL_MESSAGE : String := "ML TOOL USED"

/-- The three tool-usage messages. -/
def toolMessages : List String := [SQL_TOOL_MESSAGE, RAG_TOOL_MESSAGE, ML_TOOL_MESSAGE]

/-- Operations on the shared tracker state (a single string). -/
inductive TrackerEvent where
  | reset
  | record (msg : String)
deriving DecidableEq, Repr

/-- `ToolUsageTracker.reset` sets the default; `record` overwrites. -/
def applyEvent (_s : String) : TrackerEvent → String
  | TrackerEvent.reset => DEFAULT_MESSAGE
  | TrackerEvent.record m => m

/-- The tracker state after a sequence of events, starting from `s`. -/
def runEvents (s : String) (es : List TrackerEvent) : String :=
  es.foldl applyEvent s

/-- The event trace of one agent query: `query`/`query_stream` call
`reset_tool_usage()` before invoking the agent (src/backend/agent.py lines
57 and 154), and each tool's `run` records its own message as its first
action; `tools` lists the messages of the tools that ran, in order. -/
def queryTrace (tools : List String) : List TrackerEvent :=
  TrackerEvent.reset :: tools.map TrackerEvent.record

/-- The claim's (C4) description of target detection: among the keyword groups
in priority order, the first that both matches the query and has a candidate
column present in the dataframe supplies the first such column; otherwise the
first available fallback column; otherwise `None`. -/
def detect_target_variable_claim (cols : List String) (query : String) : Option String :=
  match target_preferences.findSome? (fun p =>
      if p.1.any (fun k => pyIn k (pyLower query)) then
        p.2.find? (fun c => cols.contains c)
      else none) with
  | some c => some c
  | none => fallback_order.find? (fun c => cols.contains c)

/-! ## Theorems -/

/-! ### C1 — simple/complex classification of `_is_simple_query` -/

/-- C1 counterexample: the query "show me the data" contains no keyword from
either fixed word list, yet `_is_simple_query` classifies it as complex
(`false`, i.e. train a fresh regression model), not simple — the ambiguous
default is complex, not simple. -/
theorem is_simple_query_ambiguous_counterexample :
    prediction_keywords.all (fun k => !pyIn k (pyLower "show me the data")) = true ∧
    simple_keywords.all (fun k => !pyIn k (pyLower "show me the data")) = true ∧
    is_simple_query "show me the data" = false := by
  decide

/-- C1 (amended): `_is_simple_query` classifies a query as complex when it
contains any prediction keyword, as simple when it instead contains a
simple-statistics keyword, and defaults to complex (not simple) when the
query contains no keyword from either list. -/
theorem is_simple_query_spec (q : String) :
    (prediction_keywords.any (fun k => pyIn k (pyLower q)) = true →
      is_simple_query q = false) ∧
    (prediction_keywords.any (fun k => pyIn k (pyLower q)) = false →
      simple_keywords.any (fun k => pyIn k (pyLower q)) = true →
      is_simple_query q = true) ∧
    (prediction_keywords.any (fun k => pyIn k (pyLower q)) = false →
      simple_keywords.any (fun k => pyIn k (pyLower q)) = false →
      is_simple_query q = false) := by
  refine ⟨fun h => ?_, fun h1 h2 => ?_, fun h1 h2 => ?_⟩
  · simp [is_simple_query, h]
  · simp [is_simple_query, h1, h2]
  · simp [is_simple_query, h1, h2]

/-- Witness for C1's theorem at concrete queries. -/
theorem is_simple_query_spec_witness :
    is_simple_query "forecast the roi" = false ∧
    is_simple_query "typical uplift" = true :=
  ⟨(is_simple_query_spec "forecast the roi").1 (by decide),
   (is_simple_query_spec "typical uplift").2.1 (by decide) (by decide)⟩

/-! ### C5 — `parse_date_filter` -/

/-- Auxiliary: `find?` returns the first element satisfying the predicate. -/
theorem find?_eq_of_first {α : Type} (p : α → Bool) :
    ∀ (l : List α) (i : Nat) (hi : i < l.length),
      p (l.get ⟨i, hi⟩) = true →
      (∀ j (hj : j < l.length), j < i → p (l.get ⟨j, hj⟩) = false) →
      l.find? p = some (l.get ⟨i, hi⟩) := by
  intro l
  induction l with
  | nil => intro i hi; simp at hi
  | cons a t ih =>
    intro i hi hp hprev
    cases i with
    | zero =>
      simp only [List.get] at hp
      simp [List.find?, hp]
    | succ i =>
      have ha : p a = false := by
        have := hprev 0 (by simp) (Nat.succ_pos i)
        simpa using this
      simp only [List.get] at hp ⊢
      rw [List.find?, ha]
      exact ih i (Nat.lt_of_succ_lt_succ hi) hp
        (fun j hj hji =>
          by
            have := hprev (j + 1) (Nat.succ_lt_succ hj) (Nat.succ_lt_succ hji)
            simpa using this)

/-- C5: `parse_date_filter` returns at most the single `'Quarter'` entry
(modelled as `Option`): it is empty exactly when no quarter substring occurs
in the lowercased query, any returned value is one of `Q1`..`Q4`, and when
several table entries match it returns the first one in the fixed table
order. -/
theorem parse_date_filter_spec (q : String) :
    (parse_date_filter q = none ↔
      ∀ kv ∈ quarters_table, pyIn kv.1 (pyLower q) = false) ∧
    (∀ v, parse_date_filter q = some v → v ∈ ["Q1", "Q2", "Q3", "Q4"]) ∧
    (∀ i (hi : i < quarters_table.length),
      pyIn (quarters_table.get ⟨i, hi⟩).1 (pyLower q) = true →
      (∀ j (hj : j < quarters_table.length), j < i →
        pyIn (quarters_table.get ⟨j, hj⟩).1 (pyLower q) = false) →
      parse_date_filter q = some (quarters_table.get ⟨i, hi⟩).2) := by
  refine ⟨?_, ?_, ?_⟩
  · simp [parse_date_filter, List.find?_eq_none]
  · intro v hv
    simp only [parse_date_filter, Option.map_eq_some'] at hv
    obtain ⟨kv, hfind, hv2⟩ := hv
    have hmem : kv ∈ quarters_table := List.mem_of_find?_eq_some hfind
    have hall : ∀ kv ∈ quarters_table, kv.2 ∈ ["Q1", "Q2", "Q3", "Q4"] := by decide
    exact hv2 ▸ hall kv hmem
  · intro i hi hp hprev
    simp only [parse_date_filter]
    rw [find?_eq_of_first _ quarters_table i hi hp hprev]
    rfl

/-- Witness for C5's theorem: "compare q2 with q1 sales" matches entries for
both Q2 and Q1; the first match in table order is the `q1` entry. -/
theorem parse_date_filter_spec_witness :
    parse_date_filter "compare q2 with q1 sales" =
      some (quarters_table.get ⟨0, by decide⟩).2 :=
  (parse_date_filter_spec "compare q2 with q1 sales").2.2 0 (by decide) (by decide)
    (fun j hj hji => absurd hji (Nat.not_lt_zero j))

/-! ### C6 — the two quarter derivations agree on weeks 1..52 -/

/-- C6: the SQL `CASE` expression and the `_prepare_metadata` computation
derive the same quarter for every week number from 1 to 52. -/
theorem quarter_derivations_agree (w : Int) (h1 : 1 ≤ w) (h2 : w ≤ 52) :
    metadata_quarter (some w) = some (sql_quarter w) := by
  have hw : w ≠ 0 := by omega
  simp only [metadata_quarter, sql_quarter, hw, if_true, ne_eq,
    not_false_eq_true, ite_true]
  split_ifs <;> first | rfl | omega

/-- Witness for C6's theorem at week 14. -/
theorem quarter_derivations_agree_witness :
    metadata_quarter (some 14) = some (sql_quarter 14) :=
  quarter_derivations_agree 14 (by decide) (by decide)

/-! ### C4 — `_detect_target_variable` -/

/-- Auxiliary: the keyword-scan loop equals `findSome?` over the group list. -/
theorem scan_preferences_eq (query_lower : String) (cols : List String) :
    ∀ prefs : List (List String × List String),
      scan_preferences query_lower cols prefs =
        prefs.findSome? (fun p =>
          if p.1.any (fun k => pyIn k query_lower) then
            p.2.find? (fun c => cols.contains c)
          else none) := by
  intro prefs
  induction prefs with
  | nil => rfl
  | cons p rest ih =>
    obtain ⟨keywords, columns⟩ := p
    simp only [scan_preferences, List.findSome?_cons]
    by_cases hany : keywords.any (fun k => pyIn k query_lower) = true
    · rw [if_pos hany, if_pos hany]
      cases hfind : columns.find? (fun c => cols.contains c) with
      | none => exact ih
      | some c => rfl
    · rw [if_neg hany, if_neg hany]
      exact ih

/-- C4: `_detect_target_variable` scans the lowercased query against the
priority list of keyword groups and returns the first dataframe column
yielded by a matching group; when no keyword group yields a column it falls
back to the first available column of the hardcoded fallback order, and to
`None` when none of those is present. -/
theorem detect_target_variable_spec (cols : List String) (query : String) :
    detect_target_variable cols query = detect_target_variable_claim cols query := by
  rw [detect_target_variable, detect_target_variable_claim, scan_preferences_eq]

/-! ### C2 — `search_with_filters` -/

/-- Auxiliary: the accumulation loop never grows past `k` documents when it
starts strictly below `k`. -/
theorem filterLoop_length_le (filters : List (String × String)) (k : Nat) :
    ∀ (docs acc : List Doc), acc.length < k →
      (filterLoop filters k acc docs).length ≤ k := by
  intro docs
  induction docs with
  | nil =>
    intro acc h
    simpa [filterLoop] using Nat.le_of_lt h
  | cons d ds ih =>
    intro acc h
    have hlen : (acc ++ [d]).length = acc.length + 1 := by simp
    simp only [filterLoop]
    by_cases hm : matchesFilters filters d.metadata = true
    · rw [if_pos hm]
      by_cases hk : k ≤ (acc ++ [d]).length
      · rw [if_pos hk]
        omega
      · rw [if_neg hk]
        exact ih (acc ++ [d]) (by omega)
    · rw [if_neg hm]
      by_cases hk : k ≤ acc.length
      · rw [if_pos hk]
        omega
      · rw [if_neg hk]
        exact ih acc (by omega)

/-- Auxiliary: the loop output is the accumulator followed by a subsequence
of the candidate list. -/
theorem filterLoop_sublist (filters : List (String × String)) (k : Nat) :
    ∀ (docs acc : List Doc),
      ∃ t, filterLoop filters k acc docs = acc ++ t ∧ t.Sublist docs := by
  intro docs
  induction docs with
  | nil => intro acc; exact ⟨[], by simp [filterLoop]⟩
  | cons d ds ih =>
    intro acc
    simp only [filterLoop]
    by_cases hm : matchesFilters filters d.metadata = true
    · rw [if_pos hm]
      by_cases hk : k ≤ (acc ++ [d]).length
      · rw [if_pos hk]
        exact ⟨[d], rfl, List.Sublist.cons₂ d (List.nil_sublist ds)⟩
      · rw [if_neg hk]
        obtain ⟨t, ht, hsub⟩ := ih (acc ++ [d])
        exact ⟨d :: t, by rw [ht, List.append_assoc]; rfl, List.Sublist.cons₂ d hsub⟩
    · rw [if_neg hm]
      by_cases hk : k ≤ acc.length
      · rw [if_pos hk]
        exact ⟨[], by simp, List.nil_sublist _⟩
      · rw [if_neg hk]
        obtain ⟨t, ht, hsub⟩ := ih acc
        exact ⟨t, ht, List.Sublist.cons d hsub⟩

/-- Auxiliary: every document the loop adds beyond the accumulator passes the
filter check. -/
theorem filterLoop_mem (filters : List (String × String)) (k : Nat) :
    ∀ (docs acc : List Doc) (d : Doc), d ∈ filterLoop filters k acc docs →
      d ∈ acc ∨ matchesFilters filters d.metadata = true := by
  intro docs
  induction docs with
  | nil =>
    intro acc d hd
    simp only [filterLoop] at hd
    exact Or.inl hd
  | cons c cs ih =>
    intro acc d hd
    simp only [filterLoop] at hd
    by_cases hm : matchesFilters filters c.metadata = true
    · rw [if_pos hm] at hd
      by_cases hk : k ≤ (acc ++ [c]).length
      · rw [if_pos hk] at hd
        rcases List.mem_append.mp hd with h | h
        · exact Or.inl h
        · simp at h
          exact Or.inr (h ▸ hm)
      · rw [if_neg hk] at hd
        rcases ih (acc ++ [c]) d hd with h | h
        · rcases List.mem_append.mp h with h' | h'
          · exact Or.inl h'
          · simp at h'
            exact Or.inr (h' ▸ hm)
        · exact Or.inr h
    · rw [if_neg hm] at hd
      by_cases hk : k ≤ acc.length
      · rw [if_pos hk] at hd
        exact Or.inl hd
      · rw [if_neg hk] at hd
        exact ih acc d hd

/-- C2 counterexample: with filter `\x7b'Quarter': 'Q1'\x7d` a document whose
metadata has no `'Quarter'` key at all is returned, although its metadata
does not match the filter key-value pair. -/
theorem search_with_filters_counterexample :
    search_with_filters (fun _ => [⟨"row 7", [("Region", "North")]⟩]) "find promotions"
        [("Quarter", "Q1")] 1 = [⟨"row 7", [("Region", "North")]⟩] ∧
    metaLookup [("Region", "North")] "Quarter" ≠ some "Q1" := by
  decide

/-- C2 (amended): with a non-empty filter dict, `search_with_filters` keeps a
subsequence of the `k*3` over-fetched similarity candidates (hence preserves
the underlying similarity order), returns at most `k` documents, and every
returned document's metadata is consistent with every filter pair — it
either lacks the filter key or carries exactly the filter's value; with an
empty filter dict it returns exactly the plain top-`k` similarity results. -/
theorem search_with_filters_spec (vs : String → List Doc) (query : String)
    (filters : List (String × String)) (k : Nat) :
    (filters ≠ [] →
      (search_with_filters vs query filters k).Sublist ((vs query).take (k * 3)) ∧
      (search_with_filters vs query filters k).length ≤ k ∧
      ∀ d ∈ search_with_filters vs query filters k,
        matchesFilters filters d.metadata = true) ∧
    (filters = [] → search_with_filters vs query filters k = (vs query).take k) := by
  constructor
  · intro hne
    have hne' : filters.isEmpty = false := by
      cases filters with
      | nil => exact absurd rfl hne
      | cons a t => rfl
    simp only [search_with_filters, hne', Bool.false_eq_true, if_false,
      similarity_search]
    refine ⟨?_, ?_, ?_⟩
    · obtain ⟨t, ht, hsub⟩ := filterLoop_sublist filters k ((vs query).take (k * 3)) []
      rw [ht]
      simpa using hsub
    · cases k with
      | zero => simp [filterLoop]
      | succ n =>
        exact filterLoop_length_le filters (n + 1) _ [] (by simp)
    · intro d hd
      rcases filterLoop_mem filters k _ [] d hd with h | h
      · simp at h
      · exact h
  · intro he
    simp [search_with_filters, he, similarity_search]

/-- Witness for C2's theorem: a two-document ranking, quarter filter `Q1`,
`k = 1`. -/
theorem search_with_filters_spec_witness :
    (search_with_filters
        (fun _ => [⟨"r1", [("Quarter", "Q2")]⟩, ⟨"r2", [("Quarter", "Q1")]⟩])
        "promotions in q1" [("Quarter", "Q1")] 1).Sublist
      (((fun _ : String => [⟨"r1", [("Quarter", "Q2")]⟩, ⟨"r2", [("Quarter", "Q1")]⟩])
          "promotions in q1").take (1 * 3)) ∧
    (search_with_filters
        (fun _ => [⟨"r1", [("Quarter", "Q2")]⟩, ⟨"r2", [("Quarter", "Q1")]⟩])
        "promotions in q1" [("Quarter", "Q1")] 1).length ≤ 1 ∧
    ∀ d ∈ search_with_filters
        (fun _ => [⟨"r1", [("Quarter", "Q2")]⟩, ⟨"r2", [("Quarter", "Q1")]⟩])
        "promotions in q1" [("Quarter", "Q1")] 1,
      matchesFilters [("Quarter", "Q1")] d.metadata = true :=
  (search_with_filters_spec
    (fun _ => [⟨"r1", [("Quarter", "Q2")]⟩, ⟨"r2", [("Quarter", "Q1")]⟩])
    "promotions in q1" [("Quarter", "Q1")] 1).1 (by decide)

/-! ### C3 — `sync_latest_file` and the rebuild signal -/

/-- Auxiliary: membership in the descending insertion. -/
theorem mem_insertByMTimeDesc {f g : RemoteFile} :
    ∀ {l : List RemoteFile}, g ∈ insertByMTimeDesc f l ↔ g = f ∨ g ∈ l := by
  intro l
  induction l with
  | nil => simp [insertByMTimeDesc]
  | cons h t ih =>
    simp only [insertByMTimeDesc]
    by_cases hle : h.last_modified ≤ f.last_modified
    · rw [if_pos hle]
      simp
    · rw [if_neg hle]
      simp only [List.mem_cons, ih]
      tauto

/-- Auxiliary: the descending sort preserves membership. -/
theorem mem_sortByMTimeDesc {g : RemoteFile} :
    ∀ {l : List RemoteFile}, g ∈ sortByMTimeDesc l ↔ g ∈ l := by
  intro l
  induction l with
  | nil => simp [sortByMTimeDesc]
  | cons h t ih =>
    simp only [sortByMTimeDesc, mem_insertByMTimeDesc, List.mem_cons, ih]

/-- Auxiliary: the head of the descending sort has maximal modification time. -/
theorem sortByMTimeDesc_head_max :
    ∀ (l : List RemoteFile) (x : RemoteFile) (rest : List RemoteFile),
      sortByMTimeDesc l = x :: rest →
      ∀ f ∈ l, f.last_modified ≤ x.last_modified := by
  intro l
  induction l with
  | nil => intro x rest h; simp [sortByMTimeDesc] at h
  | cons g gs ih =>
    intro x rest hsort f hf
    rw [sortByMTimeDesc] at hsort
    cases hgs : sortByMTimeDesc gs with
    | nil =>
      rw [hgs] at hsort
      simp only [insertByMTimeDesc] at hsort
      obtain ⟨hx, -⟩ := List.cons.inj hsort
      rcases List.mem_cons.mp hf with h | h
      · exact h ▸ hx ▸ le_refl _
      · have : f ∈ sortByMTimeDesc gs := mem_sortByMTimeDesc.mpr h
        rw [hgs] at this
        simp at this
    | cons y ys =>
      rw [hgs] at hsort
      have hymax : ∀ f ∈ gs, f.last_modified ≤ y.last_modified :=
        ih y ys hgs
      simp only [insertByMTimeDesc] at hsort
      by_cases hle : y.last_modified ≤ g.last_modified
      · rw [if_pos hle] at hsort
        obtain ⟨hx, -⟩ := List.cons.inj hsort
        rcases List.mem_cons.mp hf with h | h
        · exact h ▸ hx ▸ le_refl _
        · exact hx ▸ le_trans (hymax f h) hle
      · rw [if_neg hle] at hsort
        obtain ⟨hx, -⟩ := List.cons.inj hsort
        rcases List.mem_cons.mp hf with h | h
        · exact h ▸ hx ▸ le_of_lt (lt_of_not_le hle)
        · exact hx ▸ hymax f h

/-- C3: when the remote store lists at least one CSV (so the newest-first
sort is non-empty with head `latest`), `latest` is newest; if its basename is
already present locally, `sync_latest_file` returns it with `is_new = False`,
deleting and downloading nothing; otherwise it deletes every local `*.csv`,
downloads `latest`, returns `is_new = True`, and `manual_sync_trigger`
then re-initializes the system with `force_rebuild = True` (regenerating the
analytical table). -/
theorem sync_latest_file_spec (remote : List RemoteFile) (localFiles : List String)
    (latest : RemoteFile) (rest : List RemoteFile)
    (hsort : sortByMTimeDesc remote = latest :: rest) :
    (∀ f ∈ remote, f.last_modified ≤ latest.last_modified) ∧
    (localFiles.contains (basename latest.name) = true →
      sync_latest_file remote localFiles =
        ⟨some (basename latest.name), false, localFiles, none⟩) ∧
    (localFiles.contains (basename latest.name) = false →
      sync_latest_file remote localFiles =
        ⟨some (basename latest.name), true,
         (localFiles.filter (fun f => !endsWithCsv f)) ++ [basename latest.name],
         some latest.name⟩ ∧
      manual_sync_force_rebuild (sync_latest_file remote localFiles) = true) := by
  refine ⟨sortByMTimeDesc_head_max remote latest rest hsort, ?_, ?_⟩
  · intro hin
    simp only [sync_latest_file, hsort]
    rw [if_pos hin]
  · intro hout
    have hne : ¬(localFiles.contains (basename latest.name) = true) := by
      intro h
      rw [h] at hout
      exact Bool.noConfusion hout
    simp only [sync_latest_file, hsort, manual_sync_force_rebuild]
    rw [if_neg hne]
    exact ⟨rfl, rfl⟩

/-- Witness for C3's theorem: two remote files, the newer one not yet local;
the old local CSV is deleted, the new file downloaded, and the rebuild
forced. -/
theorem sync_latest_file_spec_witness :
    sync_latest_file [⟨"data/x.csv", 3⟩, ⟨"data/y.csv", 7⟩] ["x.csv"] =
      ⟨some "y.csv", true, ["y.csv"], some "data/y.csv"⟩ ∧
    manual_sync_force_rebuild
      (sync_latest_file [⟨"data/x.csv", 3⟩, ⟨"data/y.csv", 7⟩] ["x.csv"]) = true :=
  (sync_latest_file_spec [⟨"data/x.csv", 3⟩, ⟨"data/y.csv", 7⟩] ["x.csv"]
    ⟨"data/y.csv", 7⟩ [⟨"data/x.csv", 3⟩] (by decide)).2.2 (by decide)

/-! ### C7 — `retry_with_backoff` on `execute_sql` -/

/-- Auxiliary: if attempts `retries, …, retries+i-1` raise and attempt
`retries+i` succeeds (with `retries+i` within the budget), the loop returns
the success and has slept `delay * 2^(retries), …` after each failure. -/
theorem retryLoop_success {E A : Type} (f : Nat → Except E A) (m : Nat) (delay : ℚ)
    (a : A) :
    ∀ (i retries : Nat) (waits : List ℚ),
      retries + i < m →
      (∀ j, j < i → ∃ e, f (retries + j) = Except.error e) →
      f (retries + i) = Except.ok a →
      retryLoop f m delay retries waits =
        (some (Except.ok a),
         waits ++ (List.range i).map (fun j => delay * 2 ^ (retries + j))) := by
  intro i
  induction i with
  | zero =>
    intro retries waits hlt _ hok
    rw [retryLoop, if_pos (by omega : retries < m)]
    rw [Nat.add_zero] at hok
    rw [hok]
    simp
  | succ i ih =>
    intro retries waits hlt hprev hok
    obtain ⟨e, he⟩ := hprev 0 (Nat.succ_pos i)
    rw [Nat.add_zero] at he
    rw [retryLoop, if_pos (by omega : retries < m), he]
    dsimp only
    rw [if_neg (by omega : ¬ m ≤ retries + 1)]
    rw [ih (retries + 1) (waits ++ [delay * 2 ^ retries]) (by omega)
      (fun j hj => by
        obtain ⟨e', he'⟩ := hprev (j + 1) (Nat.succ_lt_succ hj)
        exact ⟨e', by rw [show retries + 1 + j = retries + (j + 1) by omega]; exact he'⟩)
      (by rw [show retries + 1 + i = retries + (i + 1) by omega]; exact hok)]
    rw [List.append_assoc]
    refine congrArg (fun w => (some (Except.ok a), waits ++ w)) ?_
    rw [List.range_succ_eq_map, List.map_cons, List.map_map]
    refine congrArg₂ List.cons (by rw [Nat.add_zero]) ?_
    refine List.map_congr_left (fun j _ => ?_)
    simp only [Function.comp_apply]
    rw [show retries + 1 + j = retries + (j + 1) by omega]

/-- Auxiliary: if every attempt up to the budget raises, the loop re-raises
the exception of the final attempt after sleeping between the earlier ones. -/
theorem retryLoop_exhaust {E A : Type} (f : Nat → Except E A) (m : Nat) (delay : ℚ)
    (es : Nat → E) :
    ∀ (i retries : Nat) (waits : List ℚ),
      retries + 1 + i = m →
      (∀ j, j ≤ i → f (retries + j) = Except.error (es (retries + j))) →
      retryLoop f m delay retries waits =
        (some (Except.error (es (retries + i))),
         waits ++ (List.range i).map (fun j => delay * 2 ^ (retries + j))) := by
  intro i
  induction i with
  | zero =>
    intro retries waits hm herr
    have h0 := herr 0 (Nat.le_refl 0)
    rw [Nat.add_zero] at h0
    rw [retryLoop, if_pos (by omega : retries < m), h0]
    dsimp only
    rw [if_pos (by omega : m ≤ retries + 1)]
    simp
  | succ i ih =>
    intro retries waits hm herr
    have h0 := herr 0 (Nat.zero_le _)
    rw [Nat.add_zero] at h0
    rw [retryLoop, if_pos (by omega : retries < m), h0]
    dsimp only
    rw [if_neg (by omega : ¬ m ≤ retries + 1)]
    rw [ih (retries + 1) (waits ++ [delay * 2 ^ retries]) (by omega)
      (fun j hj => by
        have := herr (j + 1) (Nat.succ_le_succ hj)
        rw [show retries + 1 + j = retries + (j + 1) by omega]
        exact this)]
    rw [List.append_assoc]
    refine congrArg₂ Prod.mk
      (by rw [show retries + 1 + i = retries + (i + 1) by omega]) ?_
    refine congrArg (fun w => waits ++ w) ?_
    rw [List.range_succ_eq_map, List.map_cons, List.map_map]
    refine congrArg₂ List.cons (by rw [Nat.add_zero]) ?_
    refine List.map_congr_left (fun j _ => ?_)
    simp only [Function.comp_apply]
    rw [show retries + 1 + j = retries + (j + 1) by omega]

/-- C7: the retry wrapper on `execute_sql` (with `max_retries = 5`,
`delay = 1.0`) returns the result of the first invocation that does not
raise, sleeping `delay * 2^(i-1)` seconds after the `i`-th failed attempt,
and re-raises the last exception after 5 consecutive failures. -/
theorem execute_sql_retry_spec {E A : Type} (f : Nat → Except E A) (es : Nat → E)
    (a : A) :
    (∀ i, i < SQL_MAX_RETRIES →
      (∀ j, j < i → f j = Except.error (es j)) →
      f i = Except.ok a →
      execute_sql_with_retry f =
        (some (Except.ok a),
         (List.range i).map (fun j => SQL_RETRY_DELAY * 2 ^ j))) ∧
    ((∀ j, j < SQL_MAX_RETRIES → f j = Except.error (es j)) →
      execute_sql_with_retry f =
        (some (Except.error (es 4)),
         (List.range 4).map (fun j => SQL_RETRY_DELAY * 2 ^ j))) := by
  constructor
  · intro i hi hprev hok
    rw [execute_sql_with_retry, retry_with_backoff,
      retryLoop_success f SQL_MAX_RETRIES SQL_RETRY_DELAY a i 0 []
        (by simpa using hi)
        (fun j hj => ⟨es j, by simpa using hprev j hj⟩)
        (by simpa using hok)]
    simp
  · intro hall
    rw [execute_sql_with_retry, retry_with_backoff,
      retryLoop_exhaust f SQL_MAX_RETRIES SQL_RETRY_DELAY es 4 0 []
        (by decide)
        (fun j hj => by
          have hj5 : j < SQL_MAX_RETRIES := by
            change j < 5
            omega
          simpa using hall j hj5)]
    simp

/-- Witness for C7's theorem: the first attempt raises, the second succeeds;
one back-off sleep of `1.0 * 2^0` seconds is performed. -/
theorem execute_sql_retry_spec_witness :
    execute_sql_with_retry
        (fun n => if n = 0 then Except.error "timeout" else Except.ok (42 : Nat)) =
      (some (Except.ok 42), (List.range 1).map (fun j => SQL_RETRY_DELAY * 2 ^ j)) :=
  (execute_sql_retry_spec
      (fun n => if n = 0 then Except.error "timeout" else Except.ok (42 : Nat))
      (fun _ => "timeout") 42).1 1 (by decide)
    (fun j hj => by
      have hj0 : j = 0 := by omega
      rw [hj0]
      rfl)
    rfl

/-! ### C8 — tool error boundaries -/

/-- Auxiliary: a prefix of a string stays a prefix after appending. -/
theorem startsWithChars_append (n : List Char) :
    ∀ (hay ext : List Char), startsWithChars hay n = true →
      startsWithChars (hay ++ ext) n = true := by
  induction n with
  | nil =>
    intro hay ext _
    cases hay with
    | nil => cases ext <;> rfl
    | cons c cs => rfl
  | cons d ds ih =>
    intro hay ext h
    cases hay with
    | nil => exact absurd h (by simp [startsWithChars])
    | cons c cs =>
      simp only [startsWithChars, Bool.and_eq_true] at h
      simp only [List.cons_append, startsWithChars, Bool.and_eq_true]
      exact ⟨h.1, ih cs ext h.2⟩

/-- Auxiliary: appending any suffix to an error prefix keeps `"Error"` at
the front. -/
theorem error_prefix_append (pre : String) (e : String)
    (h : startsWithChars pre.data "Error".data = true) :
    startsWithChars (pre ++ e).data "Error".data = true := by
  have : (pre ++ e).data = pre.data ++ e.data := rfl
  rw [this]
  exact startsWithChars_append _ pre.data e.data h

/-- C8: each tool's `run` is a total `String`-valued function (no exception
reaches the caller), and whenever an internal step fails, the returned text
begins with `"Error"`. -/
theorem tool_runs_error_boundary :
    (∀ (env : SQLEnv) (q : String), sqlRunFails env →
      startsWithChars (sql_tool_run env q).data "Error".data = true) ∧
    (∀ (env : RAGEnv) (q : String), ragRunFails env q →
      startsWithChars (rag_tool_run env q).data "Error".data = true) ∧
    (∀ (cols : List String) (env : MLEnv) (q : String), mlRunFails cols env q →
      startsWithChars (ml_tool_run cols env q).data "Error".data = true) := by
  refine ⟨?_, ?_, ?_⟩
  · intro env q hfail
    rcases hfail with ⟨e, he⟩ | ⟨sql, e, hsql, he⟩
    · rw [sql_tool_run, he]
      exact error_prefix_append _ e (by decide)
    · rw [sql_tool_run, hsql]
      dsimp only
      rw [he]
      exact error_prefix_append _ e (by decide)

  · intro env q hfail
    rcases hfail with ⟨e, he⟩ | ⟨docs, e, hdocs, hne, he⟩
    · rw [rag_tool_run, he]
      exact error_prefix_append _ e (by decide)
    · rw [rag_tool_run, hdocs]
      dsimp only
      rw [if_neg (by simpa using hne), he]
      exact error_prefix_append _ e (by decide)
  · intro cols env q hfail
    obtain ⟨hcache, hrest⟩ := hfail
    rcases hrest with ⟨e, he⟩ | ⟨⟨s, hs⟩, hbranch, e, he⟩
    · rw [ml_tool_run, hcache, he]
      exact error_prefix_append _ e (by decide)
    · rw [ml_tool_run, hcache, hs]
      dsimp only
      rcases hbranch with hsimple | htarget
      · rw [if_pos hsimple, he]
        exact error_prefix_append _ e (by decide)
      · by_cases hsq : is_simple_query q = true
        · rw [if_pos hsq, he]
          exact error_prefix_append _ e (by decide)
        · rw [if_neg hsq, htarget]
          dsimp only
          rw [he]
          exact error_prefix_append _ e (by decide)

/-- Witness for C8's theorem: one failing environment per tool. -/
theorem tool_runs_error_boundary_witness :
    startsWithChars
      (sql_tool_run ⟨Except.error "db locked", fun _ => Except.ok []⟩ "avg uplift").data
      "Error".data = true ∧
    startsWithChars
      (rag_tool_run ⟨fun _ _ => Except.error "IndexError: empty index",
        Except.ok "fine"⟩ "similar promos").data
      "Error".data = true ∧
    startsWithChars
      (ml_tool_run ["ROI%"] ⟨none, Except.error "rate limited",
        Except.ok "stats", "prediction"⟩ "what will roi be").data
      "Error".data = true :=
  ⟨tool_runs_error_boundary.1 ⟨Except.error "db locked", fun _ => Except.ok []⟩
      "avg uplift" (Or.inl ⟨"db locked", rfl⟩),
   tool_runs_error_boundary.2.1 ⟨fun _ _ => Except.error "IndexError: empty index",
      Except.ok "fine"⟩ "similar promos" (Or.inl ⟨"IndexError: empty index", rfl⟩),
   tool_runs_error_boundary.2.2 ["ROI%"] ⟨none, Except.error "rate limited",
      Except.ok "stats", "prediction"⟩ "what will roi be"
      ⟨rfl, Or.inl ⟨"rate limited", rfl⟩⟩⟩

/-! ### C9 — the shared tool-usage flag -/

/-- Auxiliary: folding `record` events yields the last recorded message, or
the start state when none were recorded. -/
theorem runEvents_records :
    ∀ (ts : List String) (s : String),
      runEvents s (ts.map TrackerEvent.record) = ts.getLastD s := by
  intro ts
  induction ts with
  | nil => intro s; rfl
  | cons t ts ih =>
    intro s
    rw [List.map_cons, runEvents, List.foldl_cons]
    exact (ih t).trans (List.getLastD_cons s t ts).symm

/-- Auxiliary: folding `record` events whose messages come from a fixed pool
keeps the state inside the pool (given that the start state is in it). -/
theorem runEvents_mem (msgs : List String) :
    ∀ (ts : List String) (s : String),
      (∀ m ∈ ts, m ∈ msgs) → s ∈ msgs →
      runEvents s (ts.map TrackerEvent.record) ∈ msgs := by
  intro ts
  induction ts with
  | nil => intro s _ hs; exact hs
  | cons t ts ih =>
    intro s h hs
    rw [List.map_cons, runEvents, List.foldl_cons]
    exact ih t (fun m hm => h m (List.mem_cons_of_mem t hm))
      (h t (List.mem_cons_self t ts))

/-- C9: over a query's event trace (reset first, then each tool recording
its own message), the flag always holds the default message or one of the
tool messages from the reset on, and after the query it names the last tool
that ran, or the default when no tool ran. -/
theorem tool_usage_tracker_spec (s0 : String) (tools : List String)
    (h : ∀ m ∈ tools, m ∈ toolMessages) :
    (∀ n, 1 ≤ n →
      runEvents s0 ((queryTrace tools).take n) ∈ DEFAULT_MESSAGE :: toolMessages) ∧
    runEvents s0 (queryTrace tools) = tools.getLastD DEFAULT_MESSAGE := by
  constructor
  · intro n hn
    obtain ⟨m, rfl⟩ : ∃ m, n = m + 1 := ⟨n - 1, by omega⟩
    rw [queryTrace, List.take_succ_cons, runEvents, List.foldl_cons]
    rw [← List.map_take]
    exact runEvents_mem _ (tools.take m) DEFAULT_MESSAGE
      (fun x hx => List.mem_cons_of_mem _ (h x (List.mem_of_mem_take hx)))
      (List.mem_cons_self _ _)
  · rw [queryTrace, runEvents, List.foldl_cons]
    exact runEvents_records tools DEFAULT_MESSAGE

/-- Witness for C9's theorem: a query during which the SQL tool then the ML
tool ran, starting from an arbitrary stale flag value. -/
theorem tool_usage_tracker_spec_witness :
    runEvents "stale" (queryTrace [SQL_TOOL_MESSAGE, ML_TOOL_MESSAGE]) =
      [SQL_TOOL_MESSAGE, ML_TOOL_MESSAGE].getLastD DEFAULT_MESSAGE :=
  (tool_usage_tracker_spec "stale" [SQL_TOOL_MESSAGE, ML_TOOL_MESSAGE] (by decide)).2

/-! ### C10 — missing metadata keys pass the retrieval filter -/

/-- C10: in `search_with_filters`, a document lacking a filter key is treated
as matching that filter — the filter check holds exactly when the metadata
carries no conflicting value for any filter key; in particular a document
with no `'Quarter'` metadata passes every quarter filter and can be
returned. -/
theorem search_with_filters_missing_key (filters md : List (String × String))
    (qv : String) :
    (matchesFilters filters md = true ↔
      ∀ kv ∈ filters, ∀ v, metaLookup md kv.1 = some v → v = kv.2) ∧
    (metaLookup md "Quarter" = none → matchesFilters [("Quarter", qv)] md = true) ∧
    (∀ (q : String) (d : Doc), metaLookup d.metadata "Quarter" = none →
      search_with_filters (fun _ => [d]) q [("Quarter", qv)] 1 = [d]) := by
  refine ⟨?_, ?_, ?_⟩
  · rw [matchesFilters, List.all_eq_true]
    constructor
    · intro hall kv hkv v hv
      have := hall kv hkv
      rw [hv] at this
      exact beq_iff_eq.mp this
    · intro hcons kv hkv
      cases hlook : metaLookup md kv.1 with
      | none => rfl
      | some v => exact beq_iff_eq.mpr (hcons kv hkv v hlook)
  · intro hnone
    rw [matchesFilters, List.all_eq_true]
    intro kv hkv
    simp only [List.mem_singleton] at hkv
    rw [hkv]
    dsimp only
    rw [hnone]
  · intro q d hnone
    have hmatch : matchesFilters [("Quarter", qv)] d.metadata = true := by
      rw [matchesFilters, List.all_eq_true]
      intro kv hkv
      simp only [List.mem_singleton] at hkv
      rw [hkv]
      dsimp only
      rw [hnone]
    rw [search_with_filters, if_neg (by simp), similarity_search]
    show filterLoop [("Quarter", qv)] 1 [] [d] = [d]
    simp only [filterLoop]
    rw [if_pos hmatch]
    rw [if_pos (by simp)]
    rfl

/-- Witness for C10's theorem: a document carrying only a `Region` key is
returned under the filter `\x7b'Quarter': 'Q3'\x7d`. -/
theorem search_with_filters_missing_key_witness :
    search_with_filters (fun _ => [⟨"promo row", [("Region", "South")]⟩])
      "third quarter promos" [("Quarter", "Q3")] 1 =
      [⟨"promo row", [("Region", "South")]⟩] :=
  (search_with_filters_missing_key [("Quarter", "Q3")] [("Region", "South")] "Q3").2.2
    "third quarter promos" ⟨"promo row", [("Region", "South")]⟩ rfl

end Drishti
